import Mathlib

/-
  Verification of the incremental-ingestion core of the dwd-cdc repository
  (hr-temp.py and ftplight.py), shallowly embedded in Lean 4.

  Conventions of the embedding:
  * SQLite tables become Lean lists; compact timestamps stay strings and are
    compared lexicographically on their character lists, exactly as Python
    compares str values (by code point).
  * Python string primitives (split, strip, endswith, comparison) are
    re-implemented structurally on the character list of the string, so that
    every definition evaluates inside the kernel.
  * Python code that can raise becomes `Except String` with a named message
    constant per raise site; `assert` becomes an explicit error branch.
  * Python `float` on the plain decimal literals of the payload is embedded
    as an exact decimal-to-rational parser (the payload format carries no
    exponents, infinities or NaN).
-/

namespace DwdCdc

/-! ## Python string primitives, re-implemented structurally -/

/-- Lexicographic strict comparison of Python str values. -/
abbrev pyLt (a b : String) : Prop := a.data < b.data

/-- Lexicographic non-strict comparison of Python str values. -/
abbrev pyLe (a b : String) : Prop := a.data ≤ b.data

/-- Whitespace in the sense of Python str.strip (the payload only ever
contains plain spaces). -/
def isPySpace (c : Char) : Bool :=
  c = ' ' ∨ c = '\t' ∨ c = '\n' ∨ c = '\r'

/-- Embeds Python str.strip(). -/
def pyStrip (s : String) : String :=
  String.mk (((s.data.dropWhile isPySpace).reverse.dropWhile isPySpace).reverse)

/-- Helper of `splitChar`: accumulate the current field (reversed). -/
def splitCharAux (sep : Char) : List Char → List Char → List (List Char)
  | [], acc => [acc.reverse]
  | c :: cs, acc =>
    if c = sep then acc.reverse :: splitCharAux sep cs []
    else splitCharAux sep cs (c :: acc)

/-- Embeds Python str.split with a one-character separator: every separator
occurrence ends a field, empty fields included. -/
def splitChar (sep : Char) (s : String) : List String :=
  (splitCharAux sep s.data []).map (fun cs => String.mk cs)

/-- Embeds Python str.endswith. -/
def pyEndsWith (s suffix : String) : Bool :=
  suffix.data.isSuffixOf s.data

/-- Embeds Python str.startswith. -/
def pyStartsWith (s pre : String) : Bool :=
  pre.data.isPrefixOf s.data

/-! ## Numeric string parsing (embeds Python `int(...)` and `float(...)`) -/

/-- Value of a digit character. -/
def digitVal (c : Char) : Nat := c.toNat - 48

/-- Fold a list of characters onto an accumulated decimal value; any
non-digit aborts with `none`. -/
def digitsAccum (acc : Option Nat) (cs : List Char) : Option Nat :=
  cs.foldl
    (fun a c => match a with
      | none => none
      | some v => if c.isDigit then some (v * 10 + digitVal c) else none)
    acc

/-- Decimal value of a non-empty all-digit character list; `none` otherwise.
Embeds the digit-sequence core of Python `int`. -/
def natOfDigits? (cs : List Char) : Option Nat :=
  if cs.isEmpty then none else digitsAccum (some 0) cs

/-- Embeds Python `int(s)` for decimal literals: surrounding whitespace is
stripped, one optional sign, then digits. -/
def parseInt? (s : String) : Option Int :=
  match (pyStrip s).data with
  | [] => none
  | c :: cs =>
    if c = '-' then (natOfDigits? cs).map (fun n => -(n : Int))
    else if c = '+' then (natOfDigits? cs).map (fun n => (n : Int))
    else (natOfDigits? (c :: cs)).map (fun n => (n : Int))

/-- Sign and remaining characters of a trimmed numeric literal. -/
def splitSign (cs : List Char) : Int × List Char :=
  match cs with
  | '-' :: rest => (-1, rest)
  | '+' :: rest => (1, rest)
  | rest => (1, rest)

/-- Embeds Python `float(s)` on the decimal literals of the payload:
optional surrounding whitespace and sign, an integer part and an optional
fractional part separated by one dot, at least one digit overall. -/
def parseDecimal? (s : String) : Option ℚ :=
  let (sign, rest) := splitSign (pyStrip s).data
  match splitChar '.' (String.mk rest) with
  | [ip] => (natOfDigits? ip.data).map (fun n => (sign : ℚ) * (n : ℚ))
  | [ip, fp] =>
    if ip.data.isEmpty ∧ fp.data.isEmpty then none
    else
      match (if ip.data.isEmpty then some 0 else natOfDigits? ip.data),
            (if fp.data.isEmpty then some 0 else natOfDigits? fp.data) with
      | some iv, some fv =>
          some ((sign : ℚ) * ((iv : ℚ) + (fv : ℚ) / (10 : ℚ) ^ fp.data.length))
      | _, _ => none
  | _ => none

/-- Spec-side formulation of "the decimal value" of a numeric literal: drop
the dot, read all digits as one integer, divide by ten to the number of
fractional digits.  Used to state that the parser maps a non-sentinel column
exactly to its decimal value. -/
def decimalValue? (s : String) : Option ℚ :=
  let (sign, rest) := splitSign (pyStrip s).data
  match splitChar '.' (String.mk rest) with
  | [ip] => (natOfDigits? ip.data).map (fun n => (sign : ℚ) * (n : ℚ))
  | [ip, fp] =>
    (natOfDigits? (ip.data ++ fp.data)).map
      (fun n => (sign : ℚ) * (n : ℚ) / (10 : ℚ) ^ fp.data.length)
  | _ => none

/-! ## Data model (tables of hr-temp.sqlite; schema keys per spec section 3) -/

/-- A row of the readings table, as built by `ProcessDataFile._parse`
(hr-temp.py lines 440-447). -/
structure Reading where
  station : Int
  dwdts : String
  y : Int
  m : Int
  d : Int
  h : Int
  q : Int
  temp : Option ℚ
  humid : Option ℚ

/-- A row of the stationen table (hr-temp.py lines 146-156). -/
structure StationRow where
  station : Int
  von : String
  bis : String
  hoehe : Int
  breite : ℚ
  laenge : ℚ
  name : String
  land : String

/-- The persistent store.  Modelled from the spec: the schema files are not
under src/; per spec sections 3 and 6 the readings table is keyed by
(station, timestamp) and the recent (watermark) table holds one row per
station. -/
structure DB where
  stationen : List StationRow
  readings : List Reading
  recent : List (Int × String)

/-- Earlier than every real timestamp (hr-temp.py line 305). -/
def NULLDATUM : String := "1700010100"

/-- First stationen row for a station id (SQL `where s.station = ?`). -/
def stationenLookup (db : DB) (sid : Int) : Option StationRow :=
  db.stationen.find? (fun r => r.station = sid)

/-- Watermark-table value for a station id. -/
def recentLookup (db : DB) (sid : Int) : Option String :=
  (db.recent.find? (fun p => p.1 = sid)).map (fun p => p.2)

/-- Maximum of a list of strings (SQL `max` over text). -/
def maxTs? : List String → Option String
  | [] => none
  | x :: xs => some (xs.foldl (fun a b => if pyLt a b then b else a) x)

/-- SQL `max(rd.dwdts)` over the readings of one station. -/
def maxReadingTs (db : DB) (sid : Int) : Option String :=
  maxTs? ((db.readings.filter (fun r => r.station = sid)).map (fun r => r.dwdts))

/-! ## Station loading (`Station.__init__`, hr-temp.py lines 204-235) -/

/-- The dict LAND_MAP (hr-temp.py lines 172-190). -/
def LAND_MAP : List (String × String) :=
  [("Baden-Württemberg", "BW"), ("Bayern", "BY"), ("Berlin", "BE"),
   ("Brandenburg", "BB"), ("Bremen", "HB"), ("Hamburg", "HH"),
   ("Hessen", "HE"), ("Mecklenburg-Vorpommern", "MV"),
   ("Niedersachsen", "NI"), ("Nordrhein-Westfalen", ""),
   ("Rheinland-Pfalz", "RP"), ("Saarland", "SL"), ("Sachsen", "SN"),
   ("Sachsen-Anhalt", "ST"), ("Schleswig-Holstein", "SH"),
   ("Thüringen", "TH"), ("?", "?")]

/-- Python `LAND_MAP[land]`; the dict lookup raises KeyError both for an
unknown region string and for the value None. -/
def landAbbr? (land : Option String) : Option String :=
  match land with
  | none => none
  | some l => (LAND_MAP.find? (fun p => p.1 = l)).map (fun p => p.2)

/-- The single row returned by the station query.  The query aggregates with
`max` and has no GROUP BY, so SQLite returns exactly one row even when the
station id matches nothing; all non-aggregate columns are then NULL and both
`ifnull` defaults fire.  When the station id matches nothing in stationen,
the joins produce no input rows at all, so the watermark columns default
even if the recent or readings tables mention the id. -/
structure QueryRow where
  name : Option String
  land : Option String
  von : Option String
  bis : Option String
  wmRecent : String
  wmReadings : String

/-- Embeds the select of `Station.__init__` (hr-temp.py lines 206-213). -/
def stationQuery (db : DB) (sid : Int) : QueryRow :=
  match stationenLookup db sid with
  | some r =>
    { name := some r.name, land := some r.land, von := some r.von,
      bis := some r.bis,
      wmRecent := (recentLookup db sid).getD NULLDATUM,
      wmReadings := (maxReadingTs db sid).getD NULLDATUM }
  | none =>
    { name := none, land := none, von := none, bis := none,
      wmRecent := NULLDATUM, wmReadings := NULLDATUM }

/-- The Station dataclass (hr-temp.py lines 192-202). -/
structure Station where
  station : Int
  name : Option String
  land : Option String
  isodate_von : Option String
  isodate_bis : Option String
  dwdts_recent : String
  dwdts_readings : String
  description : String
  populated : Bool

/-- Message of the watermark assertion (hr-temp.py line 228). -/
def assertWatermarkMsg : String := "AssertionError: recent vs. Daten"

/-- Message of the KeyError from `LAND_MAP[self.land]` (hr-temp.py line 231). -/
def keyErrorLandMsg : String := "KeyError: LAND_MAP"

/-- Python `str(x)` for an optional string (None prints as None). -/
def strOfOptName (o : Option String) : String :=
  match o with
  | some s => s
  | none => "None"

/-- Embeds `Station.__init__` (hr-temp.py lines 204-235).  `fetchone` on
this aggregate query always yields a row, so the Python `populated = False`
branch (lines 234-235) is unreachable; the assert runs first, then
`populated` is set, then the description is built, which raises KeyError
when the land column is NULL or unknown. -/
def loadStation (db : DB) (sid : Int) : Except String Station :=
  let row := stationQuery db sid
  if row.wmRecent = row.wmReadings then
    match landAbbr? row.land with
    | some ab =>
      Except.ok
        { station := sid, name := row.name, land := row.land,
          isodate_von := row.von, isodate_bis := row.bis,
          dwdts_recent := row.wmRecent, dwdts_readings := row.wmReadings,
          description :=
            toString sid ++ (", ") ++ strOfOptName row.name ++ (" (") ++ ab ++ (")"),
          populated := true }
    | none => Except.error keyErrorLandMsg
  else Except.error assertWatermarkMsg

/-! ## Dates (Python `date.today() + timedelta(days=-1)` and strftime) -/

/-- A proleptic-Gregorian calendar date. -/
structure Date where
  y : Nat
  m : Nat
  d : Nat

/-- Gregorian leap-year rule. -/
def isLeapYear (y : Nat) : Bool :=
  (y % 4 = 0 ∧ y % 100 ≠ 0) ∨ y % 400 = 0

/-- Days in a month. -/
def daysInMonth (y m : Nat) : Nat :=
  if m = 2 then (if isLeapYear y then 29 else 28)
  else if m = 4 ∨ m = 6 ∨ m = 9 ∨ m = 11 then 30
  else 31

/-- Embeds `date + timedelta(days=-1)`. -/
def yesterday (t : Date) : Date :=
  if t.d > 1 then { y := t.y, m := t.m, d := t.d - 1 }
  else if t.m > 1 then { y := t.y, m := t.m - 1, d := daysInMonth t.y (t.m - 1) }
  else { y := t.y - 1, m := 12, d := 31 }

/-- Left-pad a numeral with zeros to a given width. -/
def padZero (w n : Nat) : String :=
  let s := toString n
  String.mk (List.replicate (w - s.length) '0') ++ s

/-- Embeds `strftime` with format YYYYMMDD. -/
def dateCompact (t : Date) : String :=
  padZero 4 t.y ++ padZero 2 t.m ++ padZero 2 t.d

/-! ## File expectation predicate (`is_data_expected`, hr-temp.py lines 238-262) -/

/-- Python `int(fnam.split(".")[0].split("_")[2])`. -/
def stationFromFnam (fnam : String) : Option Int :=
  match (splitChar '_' ((splitChar '.' fnam).headD (""))).get? 2 with
  | some tok => parseInt? tok
  | none => none

/-- Python `fnam.split(".")[0].split("_")[4]`, the end date of a historical
file name. -/
def histBis? (fnam : String) : Option String :=
  (splitChar '_' ((splitChar '.' fnam).headD (""))).get? 4

/-- Message of a Python ValueError or IndexError while slicing the file
name. -/
def fnamValueErrMsg : String := "ValueError: invalid literal for int"

/-- Message of the station-mismatch assertion (hr-temp.py line 246). -/
def assertStationMsg : String := "AssertionError: Station aus Filename vs. Objekt"

/-- Message of the populated assertion (hr-temp.py line 249). -/
def assertPopulatedMsg : String := "AssertionError: s.populated"

/-- Message of the `_akt.zip` suffix assertion (hr-temp.py line 257). -/
def assertAktMsg : String := "AssertionError: _akt.zip"

/-- Message of an IndexError while reading the end date token. -/
def histBisErrMsg : String := "IndexError: hist end date token"

/-- Embeds `is_data_expected` (hr-temp.py lines 238-262).  `today` stands
for `date.today()`; the station argument is optional exactly as in the
source, and the station is loaded from the store when it is not supplied. -/
def is_data_expected (db : DB) (today : Date) (fnam : String)
    (so : Option Station) : Except String Bool :=
  match stationFromFnam fnam with
  | none => Except.error fnamValueErrMsg
  | some station =>
    match (match so with
           | some s =>
             if s.station = station then Except.ok s
             else Except.error assertStationMsg
           | none => loadStation db station) with
    | Except.error e => Except.error e
    | Except.ok s =>
      if s.populated then
        if pyEndsWith fnam ("_hist.zip") then
          match histBis? fnam with
          | none => Except.error histBisErrMsg
          | some dd =>
            if pyLt ("1701") s.dwdts_readings ∧ pyLt (dd ++ ("23")) ("2018") then
              Except.ok false
            else
              Except.ok (decide (pyLt s.dwdts_readings (dd ++ ("23"))))
        else if pyEndsWith fnam ("_akt.zip") then
          Except.ok
            (decide (pyLt s.dwdts_readings (dateCompact (yesterday today) ++ ("23"))))
        else Except.error assertAktMsg
      else Except.error assertPopulatedMsg

/-! ## Record parser (`ProcessDataFile._parse`, hr-temp.py lines 400-450) -/

/-- Explicit bind on `Except String`, used to keep the embedded control flow
in plain matches. -/
def exBind (m : Except String α) (f : α → Except String β) : Except String β :=
  match m with
  | Except.error e => Except.error e
  | Except.ok a => f a

/-- Message of a Python IndexError on a row access. -/
def indexErrMsg : String := "IndexError: list index out of range"

/-- Message of a Python ValueError from int() or float(). -/
def valueErrMsg : String := "ValueError: could not convert string"

/-- Python `row[i]`: the column or an IndexError. -/
def getCol (row : List String) (i : Nat) : Except String String :=
  match row.get? i with
  | some c => Except.ok c
  | none => Except.error indexErrMsg

/-- Lift a failed numeric conversion to a ValueError. -/
def reqInt (o : Option Int) : Except String Int :=
  match o with
  | some v => Except.ok v
  | none => Except.error valueErrMsg

/-- Python slice `s[:n]` (never raises). -/
def strTake (n : Nat) (s : String) : String := String.mk (s.data.take n)

/-- Python slice `s[n:]` (never raises). -/
def strDrop (n : Nat) (s : String) : String := String.mk (s.data.drop n)

/-- Python slice `s[-2:]` (whole string when shorter than two). -/
def lastTwo (s : String) : String :=
  String.mk (s.data.drop (s.data.length - 2))

/-- The sentinel substitution of hr-temp.py lines 445-446:
`None if row[i].strip() == "-999" else float(row[i])`. -/
def sentinelVal (c : String) : Except String (Option ℚ) :=
  if pyStrip c = "-999" then Except.ok none
  else
    match parseDecimal? c with
    | some v => Except.ok (some v)
    | none => Except.error valueErrMsg

/-- Embeds the per-row tuple construction of `_parse` (hr-temp.py lines
407-417 for `ymdh` and 439-448 for the tuple): `ymdh` slices the compact
timestamp, the station and quality columns go through int(), and the
temperature and humidity columns go through the sentinel substitution. -/
def rowToReading (row : List String) : Except String Reading :=
  exBind (getCol row 1) (fun ts =>
  exBind (reqInt (parseInt? (strTake 4 ts))) (fun yv =>
  exBind (reqInt (parseInt? (strTake 2 (strDrop 4 ts)))) (fun mv =>
  exBind (reqInt (parseInt? (strTake 2 (strDrop 6 ts)))) (fun dv =>
  exBind (reqInt (parseInt? (lastTwo ts))) (fun hv =>
  exBind (getCol row 0) (fun c0 =>
  exBind (reqInt (parseInt? c0)) (fun st =>
  exBind (getCol row 2) (fun c2 =>
  exBind (reqInt (parseInt? c2)) (fun qv =>
  exBind (getCol row 3) (fun c3 =>
  exBind (sentinelVal c3) (fun tempv =>
  exBind (getCol row 4) (fun c4 =>
  exBind (sentinelVal c4) (fun humidv =>
  Except.ok
    { station := st, dwdts := ts, y := yv, m := mv, d := dv, h := hv,
      q := qv, temp := tempv, humid := humidv })))))))))))))

/-- The loop body of `_parse` over the data lines (hr-temp.py lines
426-448): a row whose timestamp column is not above the watermark is
skipped before any conversion; every other row is converted and kept in
order. -/
def parseRows (wm : String) : List (List String) → Except String (List Reading)
  | [] => Except.ok []
  | row :: rest =>
    exBind (getCol row 1) (fun ts =>
      if pyLe ts wm then parseRows wm rest
      else
        exBind (rowToReading row) (fun rd =>
        exBind (parseRows wm rest) (fun rds =>
        Except.ok (rd :: rds))))

/-- Embeds `_parse` on the rows of the payload file: the first line is the
header and is always discarded (`cnt == 1` skip, line 428). -/
def parseProdukt (wm : String) (rows : List (List String)) :
    Except String (List Reading) :=
  parseRows wm (rows.drop 1)

/-- The spec-side keep predicate: a data row survives iff its timestamp
column exists and is strictly greater than the watermark. -/
def keepRow (wm : String) (row : List String) : Bool :=
  match row.get? 1 with
  | some ts => decide (pyLt wm ts)
  | none => false

/-! ## Parser lemmas -/

theorem getCol_ok_iff {row : List String} {i : Nat} {c : String} :
    getCol row i = Except.ok c ↔ row.get? i = some c := by
  unfold getCol
  cases row.get? i <;> simp [indexErrMsg]

theorem excBindOk {α β : Type} (a : α) (f : α → Except String β) :
    (Except.ok a >>= f) = f a := rfl

theorem excPure {α : Type} (a : α) : (pure a : Except String α) = Except.ok a := rfl

/-- On a success, the timestamp column of the row is the dwdts field of the
produced reading. -/
theorem rowToReading_ok_dwdts {row : List String} {rd : Reading}
    (h : rowToReading row = Except.ok rd) :
    getCol row 1 = Except.ok rd.dwdts := by
  unfold rowToReading exBind at h
  repeat' first
  | split at h
  | dsimp only at h
  all_goals try (cases h)
  all_goals assumption

/-- The filtering characterization of `parseRows`: a successful parse of the
data lines equals the conversion, in order, of exactly the rows whose
timestamp is strictly above the watermark, and every produced reading sits
strictly above the watermark. -/
theorem parseRows_spec (wm : String) :
    ∀ (l : List (List String)) (out : List Reading),
      parseRows wm l = Except.ok out →
      List.mapM rowToReading (l.filter (keepRow wm)) = Except.ok out
      ∧ ∀ rd ∈ out, pyLt wm rd.dwdts := by
  intro l
  induction l with
  | nil =>
    intro out h
    unfold parseRows at h
    injection h with h2
    subst h2
    exact ⟨rfl, by intro rd hrd; cases hrd⟩
  | cons row rest ih =>
    intro out h
    unfold parseRows exBind at h
    cases hts : getCol row 1 with
    | error e => rw [hts] at h; cases h
    | ok ts =>
      rw [hts] at h
      dsimp only at h
      have hcol : row.get? 1 = some ts := getCol_ok_iff.mp hts
      by_cases hle : pyLe ts wm
      · rw [if_pos hle] at h
        have hkeep : keepRow wm row = false := by
          unfold keepRow
          rw [hcol]
          simp only [decide_eq_false_iff_not]
          exact not_lt.mpr hle
        obtain ⟨h1, h2⟩ := ih out h
        refine ⟨?_, h2⟩
        rw [List.filter_cons, hkeep]
        simpa using h1
      · rw [if_neg hle] at h
        cases hr : rowToReading row with
        | error e => rw [hr] at h; cases h
        | ok rd =>
          rw [hr] at h
          dsimp only at h
          cases hrest : parseRows wm rest with
          | error e => rw [hrest] at h; cases h
          | ok rds =>
            rw [hrest] at h
            dsimp only at h
            injection h with h2
            subst h2
            obtain ⟨ih1, ih2⟩ := ih rds hrest
            have hlt : pyLt wm ts := not_le.mp hle
            have hkeep : keepRow wm row = true := by
              unfold keepRow
              rw [hcol]
              exact decide_eq_true hlt
            have hdw : rd.dwdts = ts := by
              have h5 := rowToReading_ok_dwdts hr
              rw [hts] at h5
              injection h5 with h6
              exact h6.symm
            constructor
            · rw [List.filter_cons, hkeep]
              simp only [if_true, List.mapM_cons, hr, excBindOk, ih1, excPure]
            · intro x hx
              cases hx with
              | head => rw [hdw]; exact hlt
              | tail _ hmem => exact ih2 x hmem

/-- C2: a successful parse with watermark W yields exactly the data rows
(header discarded) whose timestamp column is strictly greater than W, in
their original order; rows at or below W contribute nothing. -/
theorem C2_parse_filters (wm : String) (rows : List (List String))
    (out : List Reading)
    (hout : parseProdukt wm rows = Except.ok out) :
    List.mapM rowToReading ((rows.drop 1).filter (keepRow wm)) = Except.ok out
    ∧ ∀ rd ∈ out, pyLt wm rd.dwdts :=
  parseRows_spec wm (rows.drop 1) out hout

/-! ## The decimal-value refinement (for C9) -/

theorem digitsAccum_cons (acc : Option Nat) (c : Char) (cs : List Char) :
    digitsAccum acc (c :: cs)
      = digitsAccum
          (match acc with
           | none => none
           | some v => if c.isDigit then some (v * 10 + digitVal c) else none)
          cs := rfl

theorem digitsAccum_none (cs : List Char) : digitsAccum none cs = none := by
  induction cs with
  | nil => rfl
  | cons c cs ih => rw [digitsAccum_cons]; exact ih

theorem digitsAccum_append (acc : Option Nat) (xs ys : List Char) :
    digitsAccum acc (xs ++ ys) = digitsAccum (digitsAccum acc xs) ys := by
  unfold digitsAccum
  rw [List.foldl_append]

theorem digitsAccum_shift (v : Nat) (ys : List Char) :
    digitsAccum (some v) ys
      = (digitsAccum (some 0) ys).map (fun w => v * 10 ^ ys.length + w) := by
  induction ys generalizing v with
  | nil => simp [digitsAccum]
  | cons c ys ih =>
    rw [digitsAccum_cons, digitsAccum_cons (some 0)]
    dsimp only
    by_cases hc : c.isDigit
    · rw [if_pos hc, if_pos hc, ih (v * 10 + digitVal c), ih (0 * 10 + digitVal c)]
      cases hw : digitsAccum (some 0) ys with
      | none => rfl
      | some w =>
        simp only [Option.map_some', List.length_cons]
        congr 1
        ring
    · rw [if_neg hc, if_neg hc, digitsAccum_none]
      rfl

theorem natOfDigits?_ne_nil (xs : List Char) (hxs : xs ≠ []) :
    natOfDigits? xs = digitsAccum (some 0) xs := by
  unfold natOfDigits?
  rw [if_neg (by simpa using hxs)]

theorem natOfDigits?_append_shift (xs ys : List Char)
    (hxs : xs ≠ []) (hys : ys ≠ []) :
    natOfDigits? (xs ++ ys)
      = match natOfDigits? xs, natOfDigits? ys with
        | some a, some b => some (a * 10 ^ ys.length + b)
        | _, _ => none := by
  have hcat : xs ++ ys ≠ [] := by simp [hxs]
  rw [natOfDigits?_ne_nil _ hcat, natOfDigits?_ne_nil _ hxs, natOfDigits?_ne_nil _ hys,
    digitsAccum_append]
  cases hacc : digitsAccum (some 0) xs with
  | none => rw [digitsAccum_none]
  | some a =>
    rw [digitsAccum_shift a ys]
    cases digitsAccum (some 0) ys with
    | none => rfl
    | some b => rfl

theorem parseDecimal_eq_decimalValue (s : String) :
    parseDecimal? s = decimalValue? s := by
  unfold parseDecimal? decimalValue?
  rcases hs : splitSign (pyStrip s).data with ⟨sign, rest⟩
  dsimp only
  cases hsp : splitChar '.' (String.mk rest) with
  | nil => rfl
  | cons ip tl =>
    cases tl with
    | nil => rfl
    | cons fp tl2 =>
      cases tl2 with
      | cons q qs => rfl
      | nil =>
        dsimp only
        have h10 : ((10 : ℚ)) ^ fp.data.length ≠ 0 := pow_ne_zero _ (by norm_num)
        by_cases hip : ip.data = []
        · by_cases hfp : fp.data = []
          · rw [if_pos ⟨by simpa using hip, by simpa using hfp⟩]
            have hcat : (ip.data ++ fp.data).isEmpty = true := by
              simp [hip, hfp]
            unfold natOfDigits?
            rw [if_pos hcat]
            rfl
          · rw [if_neg (fun hx => hfp (by simpa using hx.2)),
              if_pos (by simpa using hip),
              if_neg (show ¬fp.data.isEmpty = true by simpa using hfp)]
            rw [show ip.data ++ fp.data = fp.data by simp [hip]]
            cases hfv : natOfDigits? fp.data with
            | none => rfl
            | some fv =>
              simp only [Option.map_some']
              congr 1
              push_cast
              field_simp
        · rw [if_neg (fun hx => hip (by simpa using hx.1)),
            if_neg (show ¬ip.data.isEmpty = true by simpa using hip)]
          by_cases hfp : fp.data = []
          · rw [if_pos (by simpa using hfp)]
            rw [show ip.data ++ fp.data = ip.data by simp [hfp]]
            cases hiv : natOfDigits? ip.data with
            | none => rfl
            | some iv =>
              simp only [Option.map_some']
              rw [show fp.data.length = 0 by simp [hfp]]
              congr 1
              push_cast
              ring
          · rw [if_neg (show ¬fp.data.isEmpty = true by simpa using hfp),
              natOfDigits?_append_shift ip.data fp.data hip hfp]
            cases hiv : natOfDigits? ip.data with
            | none =>
              cases hfv : natOfDigits? fp.data with
              | none => rfl
              | some fv => rfl
            | some iv =>
              cases hfv : natOfDigits? fp.data with
              | none => rfl
              | some fv =>
                simp only [Option.map_some']
                congr 1
                push_cast
                field_simp
                try ring


/-- Success characterization of the sentinel substitution: the produced
value is exactly "missing for the sentinel, the decimal value otherwise". -/
theorem sentinelVal_ok {c : String} {v : Option ℚ}
    (h : sentinelVal c = Except.ok v) :
    v = (if pyStrip c = "-999" then none else decimalValue? c)
    ∧ (pyStrip c ≠ "-999" → v ≠ none) := by
  unfold sentinelVal at h
  by_cases hs : pyStrip c = "-999"
  · rw [if_pos hs] at h
    injection h with h2
    subst h2
    simp [hs]
  · rw [if_neg hs] at h
    cases hp : parseDecimal? c with
    | none => rw [hp] at h; cases h
    | some w =>
      rw [hp] at h
      injection h with h2
      subst h2
      rw [if_neg hs, ← parseDecimal_eq_decimalValue, hp]
      exact ⟨rfl, fun _ => by simp⟩

/-- On a success, both sentinel columns are read from the row and produce
the temperature and humidity fields. -/
theorem rowToReading_ok_sentinels {row : List String} {rd : Reading}
    (h : rowToReading row = Except.ok rd) :
    ∃ c3 c4, getCol row 3 = Except.ok c3 ∧ getCol row 4 = Except.ok c4
      ∧ sentinelVal c3 = Except.ok rd.temp
      ∧ sentinelVal c4 = Except.ok rd.humid := by
  unfold rowToReading exBind at h
  repeat' first
  | split at h
  | dsimp only at h
  all_goals try (cases h)
  all_goals
    exact ⟨_, _, by assumption, by assumption, by assumption, by assumption⟩

/-- C9: on any successfully converted row, a temperature or humidity column
whose stripped value is the sentinel "-999" becomes the missing value,
independently per column, and every other value is parsed exactly to its
decimal value (and in particular is not missing). -/
theorem C9_sentinel_mapping (row : List String) (rd : Reading)
    (c3 c4 : String)
    (h : rowToReading row = Except.ok rd)
    (h3 : row.get? 3 = some c3) (h4 : row.get? 4 = some c4) :
    (rd.temp = if pyStrip c3 = "-999" then none else decimalValue? c3)
    ∧ (rd.humid = if pyStrip c4 = "-999" then none else decimalValue? c4)
    ∧ (pyStrip c3 ≠ "-999" → rd.temp ≠ none)
    ∧ (pyStrip c4 ≠ "-999" → rd.humid ≠ none) := by
  obtain ⟨d3, d4, g3, g4, s3, s4⟩ := rowToReading_ok_sentinels h
  rw [getCol_ok_iff] at g3 g4
  rw [g3] at h3
  rw [g4] at h4
  injection h3 with e3
  injection h4 with e4
  subst e3
  subst e4
  obtain ⟨t1, t2⟩ := sentinelVal_ok s3
  obtain ⟨u1, u2⟩ := sentinelVal_ok s4
  exact ⟨t1, u1, t2, u2⟩

/-! ## Concrete fixtures -/

/-- An empty store. -/
def dbEmpty : DB := { stationen := [], readings := [], recent := [] }

/-- A fixed value for `date.today()`. -/
def date0 : Date := { y := 2021, m := 5, d := 5 }

/-- Metadata row of a test station. -/
def row44 : StationRow :=
  { station := 44, von := "20040601", bis := "20191231", hoehe := 100,
    breite := 50, laenge := 7, name := "Test", land := "Hessen" }

/-- A populated station whose readings end early in 2005. -/
def st44 : Station :=
  { station := 44, name := some ("Test"), land := some ("Hessen"),
    isodate_von := some ("20040601"), isodate_bis := some ("20191231"),
    dwdts_recent := "2005010100", dwdts_readings := "2005010100",
    description := "44, Test (HE)", populated := true }

/-- Historical file for station 44 ending before the 2018 cutoff. -/
def fnamHistOld : String := "stundenwerte_TU_00044_19690101_20171231_hist.zip"

/-- Historical file for station 44 ending after the 2018 cutoff. -/
def fnamHistNew : String := "stundenwerte_TU_00044_19690101_20211231_hist.zip"

/-- Current file for station 1072. -/
def fnamAkt1072 : String := "stundenwerte_TU_01072_akt.zip"

/-- A store whose recent row for station 44 disagrees with its (absent)
readings. -/
def dbMismatch : DB :=
  { stationen := [row44], readings := [], recent := [(44, "2020010101")] }

/-! ## Spec-side expectation predicate (spec section 8, amended) -/

/-- The amended expectation property: for a historical file with end date D,
expected iff watermark < D+"23" and not (watermark > "1701" and D+"23" <
"2018"); for a current file, expected iff watermark < yesterday+"23". -/
def expectedSpec (today : Date) (fnam : String) (w : String) : Prop :=
  if pyEndsWith fnam ("_hist.zip") then
    match histBis? fnam with
    | some dd => pyLt w (dd ++ ("23")) ∧ ¬(pyLt ("1701") w ∧ pyLt (dd ++ ("23")) ("2018"))
    | none => False
  else
    pyLt w (dateCompact (yesterday today) ++ ("23"))

/-- C1 counterexample: for watermark 2005010100 and a historical file ending
2017-12-31, the watermark is below the end date plus last hour, yet
`is_data_expected` returns false, because of the early-cutoff branch at
hr-temp.py lines 252-254.  This refutes the claimed if-and-only-if. -/
theorem C1_counterexample :
    is_data_expected dbEmpty date0 fnamHistOld (some st44) = Except.ok false
    ∧ pyLt st44.dwdts_readings ("20171231" ++ "23") := by
  exact ⟨rfl, by decide⟩

/-- C1 (amended): for a populated station matching the file name, on a
historical file name `is_data_expected` returns true iff the watermark is
below end-date+"23" and the early-cutoff condition (some readings present
and end date before 2018) does not hold; on a current file name it returns
true iff the watermark is below yesterday+"23". -/
theorem C1_expectation_amended (db : DB) (today : Date) (s : Station)
    (fnam : String)
    (hpop : s.populated = true)
    (hsid : stationFromFnam fnam = some s.station)
    (hsuffix : pyEndsWith fnam ("_hist.zip") = true
      ∨ pyEndsWith fnam ("_akt.zip") = true) :
    (is_data_expected db today fnam (some s) = Except.ok true ↔
      expectedSpec today fnam s.dwdts_readings) := by
  unfold is_data_expected expectedSpec
  rw [hsid]
  dsimp only
  rw [if_pos rfl]
  dsimp only
  rw [hpop, if_pos rfl]
  cases hh : pyEndsWith fnam ("_hist.zip") with
  | true =>
    rw [if_pos rfl, if_pos rfl]
    cases hb : histBis? fnam with
    | none => simp
    | some dd =>
      dsimp only
      by_cases hcut : pyLt ("1701") s.dwdts_readings ∧ pyLt (dd ++ ("23")) ("2018")
      · rw [if_pos hcut]
        simp only [Except.ok.injEq]
        exact ⟨fun h => absurd h (by simp), fun h => absurd hcut h.2⟩
      · rw [if_neg hcut]
        simp only [Except.ok.injEq, decide_eq_true_eq]
        exact ⟨fun h => ⟨h, hcut⟩, And.left⟩
  | false =>
    rcases hsuffix with hcontra | hakt
    · rw [hcontra] at hh; cases hh
    · rw [if_neg Bool.false_ne_true, if_neg Bool.false_ne_true,
        hakt, if_pos rfl]
      simp only [Except.ok.injEq, decide_eq_true_eq]

/-- C1 amended witness: the amended property holds at a concrete historical
file past the cutoff, obtained by applying the amended theorem to the
concrete run of `is_data_expected`. -/
theorem C1_expectation_amended_witness :
    expectedSpec date0 fnamHistNew st44.dwdts_readings :=
  (C1_expectation_amended dbEmpty date0 st44 fnamHistNew rfl rfl
    (Or.inl rfl)).mp rfl

/-- C6: for a station id present in the metadata store, loading the station
compares the stored watermark and the maximal reading timestamp, both
defaulting to the epoch sentinel, errors whenever they disagree, and
produces a populated station carrying both (equal) values otherwise. -/
theorem C6_watermark_invariant (db : DB) (sid : Int) (r : StationRow)
    (hr : stationenLookup db sid = some r) :
    ((recentLookup db sid).getD NULLDATUM ≠ (maxReadingTs db sid).getD NULLDATUM →
      loadStation db sid = Except.error assertWatermarkMsg)
    ∧ (∀ s, loadStation db sid = Except.ok s →
        s.populated = true
        ∧ s.dwdts_recent = (recentLookup db sid).getD NULLDATUM
        ∧ s.dwdts_readings = (maxReadingTs db sid).getD NULLDATUM
        ∧ s.dwdts_recent = s.dwdts_readings) := by
  unfold loadStation stationQuery
  rw [hr]
  constructor
  · intro hne
    simp only [if_neg hne]
  · intro s hs
    by_cases heq : (recentLookup db sid).getD NULLDATUM
        = (maxReadingTs db sid).getD NULLDATUM
    · simp only [if_pos heq] at hs
      cases hab : landAbbr? (some r.land) with
      | none => rw [hab] at hs; cases hs
      | some ab =>
        rw [hab] at hs
        cases hs
        exact ⟨rfl, rfl, heq ▸ rfl, heq⟩
    · simp only [if_neg heq] at hs
      cases hs

/-- C6 witness: a store whose recent row disagrees with the (empty) readings
fails to load. -/
theorem C6_watermark_invariant_witness :
    loadStation dbMismatch 44 = Except.error assertWatermarkMsg :=
  (C6_watermark_invariant dbMismatch 44 row44 rfl).1 (by decide)

/-- C10 counterexample: for a file naming a station absent from the metadata
store, `is_data_expected` raises, but with the KeyError from the region-map
lookup inside station construction, not with the claimed populated
assertion: the aggregate station query returns an all-NULL row whose two
defaulted watermarks agree, so the assertion passes and `populated` is set
before the description raises. -/
theorem C10_counterexample :
    is_data_expected dbEmpty date0 fnamAkt1072 none = Except.error keyErrorLandMsg
    ∧ keyErrorLandMsg ≠ assertPopulatedMsg := by
  exact ⟨rfl, by decide⟩

/-- C10 (amended): for a file whose station id is absent from the metadata
store, `is_data_expected` does not return a boolean but raises a KeyError
while building the station description (the populated flag is never false);
it raises the station-mismatch assertion when a supplied station id differs
from the id parsed from the file name.  Station existence stays an
unchecked-by-caller precondition. -/
theorem C10_missing_station_amended (db : DB) (today : Date) (fnam : String)
    (sid : Int)
    (hsid : stationFromFnam fnam = some sid)
    (habsent : stationenLookup db sid = none) :
    is_data_expected db today fnam none = Except.error keyErrorLandMsg
    ∧ (∀ s : Station, s.station ≠ sid →
        is_data_expected db today fnam (some s) = Except.error assertStationMsg) := by
  have hload : loadStation db sid = Except.error keyErrorLandMsg := by
    unfold loadStation stationQuery
    rw [habsent]
    simp [landAbbr?]
  constructor
  · unfold is_data_expected
    rw [hsid]
    dsimp only
    rw [hload]
  · intro s hne
    unfold is_data_expected
    rw [hsid]
    dsimp only
    rw [if_neg hne]

/-- C10 amended witness at a concrete absent station and a mismatched
supplied station. -/
theorem C10_missing_station_amended_witness :
    is_data_expected dbEmpty date0 fnamAkt1072 none = Except.error keyErrorLandMsg
    ∧ is_data_expected dbEmpty date0 fnamAkt1072 (some st44)
        = Except.error assertStationMsg :=
  ⟨(C10_missing_station_amended dbEmpty date0 fnamAkt1072 1072 rfl rfl).1,
   (C10_missing_station_amended dbEmpty date0 fnamAkt1072 1072 rfl rfl).2
     st44 (by decide)⟩

/-! ## Fixtures and witnesses for the parser claims -/

/-- Header line of a payload file. -/
def hdrRow : List String :=
  ["STATIONS_ID", "MESS_DATUM", "QN_9", "TT_TU", "RF_TU", "eor"]

/-- A data row at or below the watermark of the fixtures. -/
def rowOld : List String :=
  ["   44", "2020010100", "    3", "  12.3", "  80.0", "eor"]

/-- A data row above the watermark of the fixtures, with both sentinel
columns. -/
def rowNew : List String :=
  ["   44", "2020010102", "    3", "-999", " -999", "eor"]

/-- The reading produced from `rowNew`. -/
def rdNew : Reading :=
  { station := 44, dwdts := "2020010102", y := 2020, m := 1, d := 1, h := 2,
    q := 3, temp := none, humid := none }

/-- C2 witness: with watermark 2020010101 the fixture payload parses to
exactly the one newer row. -/
theorem C2_parse_filters_witness :
    List.mapM rowToReading
        (([hdrRow, rowOld, rowNew].drop 1).filter (keepRow ("2020010101")))
      = Except.ok [rdNew]
    ∧ ∀ rd ∈ [rdNew], pyLt ("2020010101") rd.dwdts :=
  C2_parse_filters ("2020010101") [hdrRow, rowOld, rowNew] [rdNew] rfl

/-- A data row with a decimal temperature and a sentinel humidity. -/
def rowMix : List String :=
  ["   44", "2020010100", "    3", "  12.3", " -999", "eor"]

/-- The reading produced from `rowMix` (its temperature is the parsed
decimal value of the column). -/
def rdMix : Reading :=
  { station := 44, dwdts := "2020010100", y := 2020, m := 1, d := 1, h := 0,
    q := 3, temp := parseDecimal? ("  12.3"), humid := none }

/-- C9 witness at a concrete row: the non-sentinel temperature column is
parsed to its decimal value and the sentinel humidity column becomes
missing. -/
theorem C9_sentinel_mapping_witness :
    (rdMix.temp = if pyStrip ("  12.3") = "-999" then none else decimalValue? ("  12.3"))
    ∧ (rdMix.humid = if pyStrip (" -999") = "-999" then none else decimalValue? (" -999"))
    ∧ (pyStrip ("  12.3") ≠ "-999" → rdMix.temp ≠ none)
    ∧ (pyStrip (" -999") ≠ "-999" → rdMix.humid ≠ none) :=
  C9_sentinel_mapping rowMix rdMix ("  12.3") (" -999") rfl rfl rfl

/-! ## Upsert writer and transactions (hr-temp.py lines 452-477 and 331-339) -/

/-- `INSERT OR IGNORE INTO readings` (lines 452-460), executed row by row in
batch order.  Modelled from the spec: the schema files are not under src/;
per spec section 3 the natural key of a reading is (station, timestamp), so
a row whose key already exists is ignored. -/
def insertOrIgnoreReadings (rs : List Reading) (db : DB) : DB :=
  rs.foldl
    (fun d r =>
      if d.readings.any (fun r0 => r0.station = r.station ∧ r0.dwdts = r.dwdts)
      then d
      else { d with readings := d.readings ++ [r] })
    db

/-- `INSERT OR REPLACE INTO recent (station, yyyymmddhh)` (lines 462-477).
Modelled from the spec: the watermark table holds one row per station, so
the replace is keyed on the station id. -/
def updateRecentRow (sid : Int) (ts : String) (db : DB) : DB :=
  { db with recent := (sid, ts) :: db.recent.filter (fun p => p.1 ≠ sid) }

/-- A SQL statement of the write phase. -/
inductive DbOp
  | insertRs (rs : List Reading)
  | updateRc (sid : Int) (ts : String)

/-- Effect of one statement on the store. -/
def applyOp (db : DB) : DbOp → DB
  | DbOp.insertRs rs => insertOrIgnoreReadings rs db
  | DbOp.updateRc sid ts => updateRecentRow sid ts db

/-- Effect of a statement list on the store. -/
def applyOps (db : DB) (ops : List DbOp) : DB := ops.foldl applyOp db

/-- The statements issued for one non-empty batch (lines 332-335): one
insert of all readings, then one replace of the recent row for the station
of the first reading with the timestamp of the last reading
(`readings[0][0]` and `readings[-1][1]`, lines 464 and 467). -/
def writeOps (rs : List Reading) : List DbOp :=
  match rs with
  | [] => []
  | r0 :: rest =>
    [DbOp.insertRs (r0 :: rest),
     DbOp.updateRc r0.station (rest.getLastD r0).dwdts]

/-- A transaction event: a statement executed inside the open transaction,
or the commit. -/
inductive TxnEvent
  | exec (op : DbOp)
  | commit

/-- The event trace of one file (lines 332-336): for a non-empty batch both
statements execute inside one open transaction and a single shared commit
follows; an empty batch touches the store not at all. -/
def txnEvents (rs : List Reading) : List TxnEvent :=
  match rs with
  | [] => []
  | _ :: _ => (writeOps rs).map TxnEvent.exec ++ [TxnEvent.commit]

/-- Durable store states along an event trace: an executed statement only
grows the pending buffer of the open transaction, a commit applies the
whole buffer at once.  Closing the connection without commit discards the
buffer (SQLite rolls back), so these are exactly the observable store
states. -/
def durableList (db : DB) (pending : List DbOp) : List TxnEvent → List DB
  | [] => []
  | TxnEvent.exec op :: es => db :: durableList db (pending ++ [op]) es
  | TxnEvent.commit :: es =>
    applyOps db pending :: durableList (applyOps db pending) [] es

/-- All durable states reachable while processing one event trace. -/
def durableStates (db : DB) (es : List TxnEvent) : List DB :=
  db :: durableList db [] es

/-- The guarded write phase of `ProcessDataFile.__init__` (lines 331-339):
parse, then insert and advance the watermark together, or do nothing when
the parse filter returns no rows. -/
def ingestPayload (db : DB) (s : Station) (rows : List (List String)) :
    Except String DB :=
  match parseProdukt s.dwdts_recent rows with
  | Except.error e => Except.error e
  | Except.ok readings => Except.ok (applyOps db (writeOps readings))

/-- Message of the ValueError of `_extract` (hr-temp.py line 397). -/
def extractErrMsg : String := "ValueError: Kein produkt_-File"

/-- A downloaded archive: entry names with the parsed rows of each entry. -/
structure Archive where
  entries : List (String × List (List String))

/-- `_extract` (hr-temp.py lines 379-397): the first entry whose name
starts with produkt_ is the payload; a missing payload entry raises. -/
def extractProdukt (ar : Archive) : Except String (List (List String)) :=
  match ar.entries.find? (fun e => pyStartsWith e.1 ("produkt_")) with
  | some e => Except.ok e.2
  | none => Except.error extractErrMsg

/-- `ProcessDataFile.__init__` (hr-temp.py lines 310-344) for one already
fetched archive: parse the station id from the file name, load the station,
check the expectation predicate, and only then extract, parse and write. -/
def processDataFile (db : DB) (today : Date) (fnam : String) (ar : Archive) :
    Except String DB :=
  match stationFromFnam fnam with
  | none => Except.error fnamValueErrMsg
  | some sid =>
    match loadStation db sid with
    | Except.error e => Except.error e
    | Except.ok s =>
      match is_data_expected db today fnam (some s) with
      | Except.error e => Except.error e
      | Except.ok false => Except.ok db
      | Except.ok true =>
        match extractProdukt ar with
        | Except.error e => Except.error e
        | Except.ok rows => ingestPayload db s rows

/-! ## C3: idempotence of re-ingestion -/

/-- A payload all of whose data rows sit at or below the watermark parses
to the empty batch. -/
theorem parseRows_all_skipped (wm : String) :
    ∀ l, (∀ r ∈ l, ∃ ts, r.get? 1 = some ts ∧ pyLe ts wm) →
      parseRows wm l = Except.ok [] := by
  intro l
  induction l with
  | nil => intro h; rfl
  | cons row rest ih =>
    intro h
    obtain ⟨ts, hts, hle⟩ := h row (by simp)
    unfold parseRows exBind
    rw [show getCol row 1 = Except.ok ts from getCol_ok_iff.mpr hts]
    dsimp only
    rw [if_pos hle]
    exact ih (fun r hr => h r (by simp [hr]))

/-- C3: re-ingesting a payload whose data rows are all at or below the
station watermark parses to the empty list, and the empty-list guard skips
both the insert and the watermark replacement, leaving the store
unchanged. -/
theorem C3_reingest_idempotent (db : DB) (sid : Int) (s : Station)
    (rows : List (List String))
    (hload : loadStation db sid = Except.ok s)
    (hall : ∀ r ∈ rows.drop 1, ∃ ts, r.get? 1 = some ts ∧ pyLe ts s.dwdts_recent) :
    parseProdukt s.dwdts_recent rows = Except.ok []
    ∧ ingestPayload db s rows = Except.ok db := by
  have hparse : parseProdukt s.dwdts_recent rows = Except.ok [] :=
    parseRows_all_skipped s.dwdts_recent (rows.drop 1) hall
  refine ⟨hparse, ?_⟩
  unfold ingestPayload
  rw [hparse]
  rfl

/-- Fixture: an already ingested store for station 44 with watermark
2020010102. -/
def dbIngested : DB :=
  { stationen := [row44], readings := [rdNew], recent := [(44, "2020010102")] }

/-- The station loaded from `dbIngested`. -/
def stIngested : Station :=
  { station := 44, name := some ("Test"), land := some ("Hessen"),
    isodate_von := some ("20040601"), isodate_bis := some ("20191231"),
    dwdts_recent := "2020010102", dwdts_readings := "2020010102",
    description := "44, Test (HE)", populated := true }

/-- C3 witness: re-running the fixture payload against the already ingested
store parses to nothing and leaves the store unchanged. -/
theorem C3_reingest_idempotent_witness :
    parseProdukt stIngested.dwdts_recent [hdrRow, rowOld, rowNew] = Except.ok []
    ∧ ingestPayload dbIngested stIngested [hdrRow, rowOld, rowNew]
        = Except.ok dbIngested :=
  C3_reingest_idempotent dbIngested 44 stIngested [hdrRow, rowOld, rowNew] rfl
    (by
      intro r hr
      simp only [List.drop, List.mem_cons, List.not_mem_nil, or_false] at hr
      rcases hr with h | h
      · subst h; exact ⟨"2020010100", rfl, by decide⟩
      · subst h; exact ⟨"2020010102", rfl, by decide⟩)

/-! ## C5: one transaction per file -/

/-- C5: along the event trace of one file, every durable store state is
either the initial state or the state with both the readings inserted and
the watermark row replaced; and for a non-empty batch that final state
carries the insert and the watermark replacement together (replacement keyed
on the station of the first reading, valued at the timestamp of the last).
No durable state shows the readings without the advanced watermark or the
watermark without the readings. -/
theorem C5_single_transaction (db : DB) (rs : List Reading) (st : DB)
    (hst : st ∈ durableStates db (txnEvents rs)) :
    (st = db ∨ st = applyOps db (writeOps rs))
    ∧ (∀ r0 rest, rs = r0 :: rest →
        applyOps db (writeOps rs)
          = updateRecentRow r0.station (rest.getLastD r0).dwdts
              (insertOrIgnoreReadings rs db)) := by
  constructor
  · cases rs with
    | nil =>
      simp only [durableStates, txnEvents, durableList, List.mem_singleton] at hst
      exact Or.inl hst
    | cons r0 rest =>
      simp only [durableStates, txnEvents, writeOps, List.map, List.cons_append,
        List.nil_append, durableList, List.mem_cons, List.not_mem_nil, or_false] at hst
      rcases hst with h | h | h | h
      · exact Or.inl h
      · exact Or.inl h
      · exact Or.inl h
      · exact Or.inr (by rw [h]; rfl)
  · intro r0 rest hrs
    subst hrs
    rfl

/-- C5 witness: the initial fixture store is a reachable durable state, and
the committed state of a one-reading batch carries insert and watermark
replacement together. -/
theorem C5_single_transaction_witness :
    (dbIngested = dbIngested ∨ dbIngested = applyOps dbIngested (writeOps [rdNew]))
    ∧ (∀ r0 rest, [rdNew] = r0 :: rest →
        applyOps dbIngested (writeOps [rdNew])
          = updateRecentRow r0.station (rest.getLastD r0).dwdts
              (insertOrIgnoreReadings [rdNew] dbIngested)) :=
  C5_single_transaction dbIngested [rdNew] dbIngested
    (by simp [durableStates, txnEvents, writeOps, durableList])

/-! ## Retry machinery and run orchestrator (hr-temp.py lines 484-535) -/

/-- Result classes of one attempt: success, a timeout-class failure, or any
other exception. -/
inductive Outcome (α : Type)
  | ok (a : α)
  | timeout
  | exn

/-- Observable outcome of a bounded retry loop: attempts made, fixed delays
slept, the result when one attempt succeeded, and whether the error flag
was set at exhaustion. -/
structure RetryResult (α : Type) where
  attempts : Nat
  delays : Nat
  result : Option α
  flagged : Bool

/-- The per-file retry loop of `process_dataset` (hr-temp.py lines
510-528): both timeout-class and other exceptions are caught, a fixed
delay follows every failed attempt, and exhaustion sets the process-wide
error flag.  The same loop shape implements `repeat` in ftplight.py lines
36-68. -/
def retryCatchAll (f : Nat → Outcome α) : Nat → Nat → Nat → RetryResult α
  | 0, att, del => ⟨att, del, none, true⟩
  | remaining + 1, att, del =>
    match f att with
    | Outcome.ok a => ⟨att + 1, del, some a, false⟩
    | Outcome.timeout => retryCatchAll f remaining (att + 1) (del + 1)
    | Outcome.exn => retryCatchAll f remaining (att + 1) (del + 1)

/-- The listing retry loop of `process_dataset` (hr-temp.py lines 493-503):
only timeout-class failures are caught and retried with the fixed delay;
any other exception propagates at once without setting the flag there;
exhaustion sets the error flag. -/
def retryTimeoutOnly (f : Nat → Outcome α) : Nat → Nat → Nat → RetryResult α
  | 0, att, del => ⟨att, del, none, true⟩
  | remaining + 1, att, del =>
    match f att with
    | Outcome.ok a => ⟨att + 1, del, some a, false⟩
    | Outcome.timeout => retryTimeoutOnly f remaining (att + 1) (del + 1)
    | Outcome.exn => ⟨att + 1, del, none, false⟩

/-- Message of the RuntimeError raised at listing exhaustion (hr-temp.py
line 503). -/
def listingFailMsg : String :=
  "RuntimeError: Finally failed to retrieve list of zip-files - terminating..."

/-- Message standing for an exception that propagates uncaught out of the
listing loop. -/
def listingPropagateMsg : String := "uncaught exception"

/-- The listing phase of `process_dataset` (hr-temp.py lines 493-503): the
error-flag contribution and either the file list or the raise. -/
def obtainFileList (f : Nat → Outcome (List String)) :
    Bool × Except String (List String) :=
  let r := retryTimeoutOnly f 3 0 0
  match r.result with
  | some fl => (false, Except.ok fl)
  | none =>
    if r.flagged then (true, Except.error listingFailMsg)
    else (false, Except.error listingPropagateMsg)

/-- One file of the per-file loop. -/
structure FileJob where
  fnam : String
  ar : Archive

/-- Classify one deterministic processing attempt: data and assertion
errors are ordinary exceptions for the surrounding loop. -/
def outcomeOf (e : Except String DB) : Outcome DB :=
  match e with
  | Except.ok d => Outcome.ok d
  | Except.error _ => Outcome.exn

/-- One file processed under the per-file retry loop (attempts are
deterministic because the store only changes on success). -/
def processOneFile (db : DB) (today : Date) (j : FileJob) : RetryResult DB :=
  retryCatchAll (fun _ => outcomeOf (processDataFile db today j.fnam j.ar)) 3 0 0

/-- The per-file loop of `process_dataset` (hr-temp.py lines 506-528): a
file whose retries are exhausted leaves the store unchanged and the loop
continues with the next file. -/
def runFiles (today : Date) (db : DB) : List FileJob → DB
  | [] => db
  | j :: js =>
    match (processOneFile db today j).result with
    | some db2 => runFiles today db2 js
    | none => runFiles today db js

theorem processOneFile_result (db : DB) (today : Date) (j : FileJob) :
    (processOneFile db today j).result
      = match processDataFile db today j.fnam j.ar with
        | Except.ok d => some d
        | Except.error _ => none := by
  unfold processOneFile outcomeOf
  cases processDataFile db today j.fnam j.ar <;> rfl

/-! ## C4: watermark monotonicity -/

/-- Stored watermark of a station, with the epoch default. -/
def recentStr (db : DB) (sid : Int) : String :=
  (recentLookup db sid).getD NULLDATUM

theorem insertOrIgnore_recent (rs : List Reading) :
    ∀ db : DB, (insertOrIgnoreReadings rs db).recent = db.recent := by
  induction rs with
  | nil => intro db; rfl
  | cons r rest ih =>
    intro db
    have hstep : insertOrIgnoreReadings (r :: rest) db
        = insertOrIgnoreReadings rest
            (if db.readings.any
                (fun r0 => r0.station = r.station ∧ r0.dwdts = r.dwdts)
             then db
             else { db with readings := db.readings ++ [r] }) := rfl
    rw [hstep, ih]
    split
    · rfl
    · rfl

theorem find?_filter_of_imp {α : Type} (p q : α → Bool) (l : List α)
    (h : ∀ a, p a = true → q a = true) :
    (l.filter q).find? p = l.find? p := by
  induction l with
  | nil => rfl
  | cons a l ih =>
    by_cases hq : q a = true
    · rw [List.filter_cons, if_pos hq]
      by_cases hp : p a = true
      · rw [List.find?_cons_of_pos _ hp, List.find?_cons_of_pos _ hp]
      · rw [List.find?_cons_of_neg _ hp, List.find?_cons_of_neg _ hp, ih]
    · rw [List.filter_cons, if_neg hq, ih,
        List.find?_cons_of_neg _ (fun hp => hq (h a hp))]

theorem recentStr_update (db : DB) (sid x : Int) (ts : String) :
    recentStr (updateRecentRow sid ts db) x
      = if x = sid then ts else recentStr db x := by
  unfold recentStr recentLookup updateRecentRow
  dsimp only
  by_cases hx : x = sid
  · subst hx
    rw [if_pos rfl, List.find?_cons_of_pos _ (by simp)]
    rfl
  · rw [if_neg hx, List.find?_cons_of_neg _ (by simp [Ne.symm hx]),
      find?_filter_of_imp]
    intro p hp
    simp only [decide_eq_true_eq] at hp ⊢
    rw [hp]
    exact hx

theorem recentStr_insert (rs : List Reading) (db : DB) (x : Int) :
    recentStr (insertOrIgnoreReadings rs db) x = recentStr db x := by
  unfold recentStr recentLookup
  rw [insertOrIgnore_recent]

theorem loadStation_ok_recent {db : DB} {sid : Int} {s : Station}
    (h : loadStation db sid = Except.ok s) :
    s.dwdts_recent = recentStr db sid := by
  unfold loadStation stationQuery at h
  cases hr : stationenLookup db sid with
  | none =>
    rw [hr] at h
    dsimp only at h
    rw [if_pos rfl] at h
    cases h
  | some r =>
    rw [hr] at h
    dsimp only at h
    by_cases heq : (recentLookup db sid).getD NULLDATUM
        = (maxReadingTs db sid).getD NULLDATUM
    · rw [if_pos heq] at h
      cases hab : landAbbr? (some r.land) with
      | none => rw [hab] at h; cases h
      | some ab =>
        rw [hab] at h
        cases h
        rfl
    · rw [if_neg heq] at h
      cases h

theorem excBindErr {α β : Type} (e : String) (f : α → Except String β) :
    (Except.error e >>= f) = Except.error e := rfl

theorem mapM_ok_mem {α β : Type} (f : α → Except String β) :
    ∀ (l : List α) (out : List β), List.mapM f l = Except.ok out →
      ∀ b ∈ out, ∃ a ∈ l, f a = Except.ok b := by
  intro l
  induction l with
  | nil =>
    intro out h b hb
    rw [List.mapM_nil] at h
    injection h with h2
    subst h2
    cases hb
  | cons a l ih =>
    intro out h b hb
    rw [List.mapM_cons] at h
    cases ha : f a with
    | error e => rw [ha, excBindErr] at h; cases h
    | ok b0 =>
      rw [ha, excBindOk] at h
      cases hl : List.mapM f l with
      | error e => rw [hl, excBindErr] at h; cases h
      | ok bs =>
        rw [hl, excBindOk, excPure] at h
        injection h with h2
        subst h2
        cases hb with
        | head => exact ⟨a, List.mem_cons_self a l, ha⟩
        | tail _ hbs =>
          obtain ⟨a2, ha2, hfa⟩ := ih bs hl b hbs
          exact ⟨a2, List.mem_cons_of_mem a ha2, hfa⟩

theorem reqInt_ok {o : Option Int} {v : Int} (h : reqInt o = Except.ok v) :
    o = some v := by
  unfold reqInt at h
  cases o with
  | none => cases h
  | some w => injection h with h2; rw [h2]

/-- On a success, the station column of the row parses to the station field
of the produced reading. -/
theorem rowToReading_ok_station {row : List String} {rd : Reading}
    (h : rowToReading row = Except.ok rd) :
    ∃ c0, getCol row 0 = Except.ok c0 ∧ parseInt? c0 = some rd.station := by
  unfold rowToReading exBind at h
  repeat' first
  | split at h
  | dsimp only at h
  all_goals try (cases h)
  all_goals exact ⟨_, by assumption, reqInt_ok (by assumption)⟩

/-- Well-formedness of a remote archive: every data row of the payload
carries the station id encoded in the file name (the source notes this as
an unchecked assumption, hr-temp.py line 399). -/
def ArchiveConsistent (fnam : String) (ar : Archive) : Prop :=
  ∀ sid rows, stationFromFnam fnam = some sid →
    extractProdukt ar = Except.ok rows →
    ∀ r ∈ rows.drop 1, ∃ c0, r.get? 0 = some c0 ∧ parseInt? c0 = some sid

/-- One successful file-processing step never lowers any stored
watermark. -/
theorem processDataFile_monotone (db : DB) (today : Date) (fnam : String)
    (ar : Archive) (db2 : DB)
    (hcons : ArchiveConsistent fnam ar)
    (hok : processDataFile db today fnam ar = Except.ok db2) :
    ∀ x, pyLe (recentStr db x) (recentStr db2 x) := by
  intro x
  unfold processDataFile at hok
  cases hsid : stationFromFnam fnam with
  | none => rw [hsid] at hok; cases hok
  | some sid =>
    rw [hsid] at hok
    dsimp only at hok
    cases hload : loadStation db sid with
    | error e => rw [hload] at hok; cases hok
    | ok s =>
      rw [hload] at hok
      dsimp only at hok
      cases hexp : is_data_expected db today fnam (some s) with
      | error e => rw [hexp] at hok; cases hok
      | ok b =>
        rw [hexp] at hok
        cases b with
        | false =>
          dsimp only at hok
          injection hok with h2
          subst h2
          exact le_refl _
        | true =>
          dsimp only at hok
          cases hext : extractProdukt ar with
          | error e => rw [hext] at hok; cases hok
          | ok rows =>
            rw [hext] at hok
            dsimp only at hok
            unfold ingestPayload at hok
            cases hp : parseProdukt s.dwdts_recent rows with
            | error e => rw [hp] at hok; cases hok
            | ok readings =>
              rw [hp] at hok
              dsimp only at hok
              injection hok with h2
              subst h2
              cases readings with
              | nil => exact le_refl _
              | cons r0 rest =>
                obtain ⟨hmapM, hgt⟩ :=
                  parseRows_spec s.dwdts_recent (rows.drop 1) (r0 :: rest) hp
                obtain ⟨rowa, hrowa, hfa⟩ :=
                  mapM_ok_mem rowToReading _ _ hmapM r0 (List.mem_cons_self _ _)
                obtain ⟨c0, hc0, hpi⟩ := rowToReading_ok_station hfa
                obtain ⟨c0x, hc0x, hpix⟩ :=
                  hcons sid rows hsid hext rowa (List.mem_of_mem_filter hrowa)
                have hc0eq : c0 = c0x := by
                  rw [getCol_ok_iff] at hc0
                  rw [hc0] at hc0x
                  injection hc0x with h3
                have hstation : r0.station = sid := by
                  rw [hc0eq, hpix] at hpi
                  injection hpi with h3
                  exact h3.symm
                have hlt : pyLt s.dwdts_recent (rest.getLastD r0).dwdts :=
                  hgt _ (List.getLastD_mem_cons rest r0)
                have hwm : s.dwdts_recent = recentStr db sid :=
                  loadStation_ok_recent hload
                have happly : applyOps db (writeOps (r0 :: rest))
                    = updateRecentRow r0.station (rest.getLastD r0).dwdts
                        (insertOrIgnoreReadings (r0 :: rest) db) := rfl
                rw [happly, recentStr_update]
                by_cases hx : x = r0.station
                · rw [if_pos hx]
                  have hrw : recentStr db x = s.dwdts_recent := by
                    rw [hwm, hx, hstation]
                  rw [hrw]
                  exact le_of_lt hlt
                · rw [if_neg hx, recentStr_insert]

/-- C4: across any run of file-processing steps over well-formed archives,
no stored watermark ever decreases; moreover every successful parse yields
only readings strictly above the previous watermark, and a non-empty batch
replaces the watermark row with the timestamp of the last parsed reading,
together with the insert. -/
theorem C4_watermark_monotone (today : Date) :
    (∀ (files : List FileJob) (db : DB),
      (∀ j ∈ files, ArchiveConsistent j.fnam j.ar) →
      ∀ x, pyLe (recentStr db x) (recentStr (runFiles today db files) x))
    ∧ (∀ wm rows out, parseProdukt wm rows = Except.ok out →
        ∀ rd ∈ out, pyLt wm rd.dwdts)
    ∧ (∀ (db : DB) (s : Station) rows r0 rest,
        parseProdukt s.dwdts_recent rows = Except.ok (r0 :: rest) →
        ingestPayload db s rows
          = Except.ok (updateRecentRow r0.station (rest.getLastD r0).dwdts
              (insertOrIgnoreReadings (r0 :: rest) db))) := by
  refine ⟨?_, ?_, ?_⟩
  · intro files
    induction files with
    | nil => intro db h x; exact le_refl _
    | cons j js ih =>
      intro db h x
      unfold runFiles
      cases hres : (processOneFile db today j).result with
      | none => exact ih db (fun j2 hj2 => h j2 (List.mem_cons_of_mem _ hj2)) x
      | some db2 =>
        have hok : processDataFile db today j.fnam j.ar = Except.ok db2 := by
          rw [processOneFile_result] at hres
          cases hpd : processDataFile db today j.fnam j.ar with
          | ok d => rw [hpd] at hres; injection hres with h2; rw [h2]
          | error e => rw [hpd] at hres; cases hres
        have h1 := processDataFile_monotone db today j.fnam j.ar db2
          (h j (List.mem_cons_self _ _)) hok x
        have h2 := ih db2 (fun j2 hj2 => h j2 (List.mem_cons_of_mem _ hj2)) x
        exact le_trans h1 h2
  · intro wm rows out hp
    exact (parseRows_spec wm (rows.drop 1) out hp).2
  · intro db s rows r0 rest hp
    unfold ingestPayload
    rw [hp]
    rfl

/-! ## Fixtures for the orchestrator claims -/

/-- Current file name of the test station. -/
def fnamAkt44 : String := "stundenwerte_TU_00044_akt.zip"

/-- A reading matching the starting watermark of `dbStart`. -/
def rdBase : Reading :=
  { station := 44, dwdts := "2020010100", y := 2020, m := 1, d := 1, h := 0,
    q := 3, temp := none, humid := none }

/-- A consistent store for station 44 with watermark 2020010100. -/
def dbStart : DB :=
  { stationen := [row44], readings := [rdBase], recent := [(44, "2020010100")] }

/-- The station loaded from `dbStart`. -/
def stStart : Station :=
  { station := 44, name := some ("Test"), land := some ("Hessen"),
    isodate_von := some ("20040601"), isodate_bis := some ("20191231"),
    dwdts_recent := "2020010100", dwdts_readings := "2020010100",
    description := "44, Test (HE)", populated := true }

/-- An archive with a payload entry. -/
def arGood : Archive :=
  { entries := [("produkt_tu_stunde.txt", [hdrRow, rowOld, rowNew])] }

/-- The job for `arGood`. -/
def jobGood : FileJob := { fnam := fnamAkt44, ar := arGood }

/-- C4 witness: one concrete run over one well-formed archive does not
lower the stored watermark of the test station. -/
theorem C4_watermark_monotone_witness :
    pyLe (recentStr dbStart 44) (recentStr (runFiles date0 dbStart [jobGood]) 44) :=
  (C4_watermark_monotone date0).1 [jobGood] dbStart
    (by
      intro j hj
      simp only [List.mem_singleton] at hj
      subst hj
      intro sid rows h1 h2 r hr
      rw [show stationFromFnam jobGood.fnam = some 44 from rfl] at h1
      injection h1 with h1x
      rw [show extractProdukt jobGood.ar = Except.ok [hdrRow, rowOld, rowNew]
        from rfl] at h2
      injection h2 with h2x
      subst h1x
      subst h2x
      simp only [List.drop, List.mem_cons, List.not_mem_nil, or_false] at hr
      rcases hr with h | h
      · subst h; exact ⟨"   44", rfl, rfl⟩
      · subst h; exact ⟨"   44", rfl, rfl⟩)
    44

/-! ## C7: missing payload entry -/

/-- An archive without any produkt_ entry. -/
def arNoProdukt : Archive :=
  { entries := [("Metadaten_Geraete.html", []), ("Stationsbeschreibung.txt", [])] }

/-- The job for `arNoProdukt`. -/
def jobBad : FileJob := { fnam := fnamAkt44, ar := arNoProdukt }

/-- C7 counterexample: on an archive without a produkt_ entry, extraction
fails with the structural error, yet the per-file loop attempts the file
three times, not once: the generic exception handler of the loop
(hr-temp.py lines 520-522) catches the ValueError and retries it like any
other failure. -/
theorem C7_counterexample :
    extractProdukt arNoProdukt = Except.error extractErrMsg
    ∧ (processOneFile dbStart date0 jobBad).attempts = 3
    ∧ (processOneFile dbStart date0 jobBad).result = none := by
  exact ⟨rfl, rfl, rfl⟩

/-- C7 (amended): when processing reaches extraction and the archive has no
produkt_ entry, the file fails with the structural error on every attempt;
the per-file loop retries it like any other exception, so the file is
attempted exactly 3 times, then the process-wide error flag is set and the
run continues with the next file, the store unchanged. -/
theorem C7_missing_payload_amended (db : DB) (today : Date) (fnam : String)
    (ar : Archive) (sid : Int) (s : Station) (js : List FileJob)
    (hsid : stationFromFnam fnam = some sid)
    (hload : loadStation db sid = Except.ok s)
    (hexp : is_data_expected db today fnam (some s) = Except.ok true)
    (hfind : ar.entries.find? (fun e => pyStartsWith e.1 ("produkt_")) = none) :
    extractProdukt ar = Except.error extractErrMsg
    ∧ processDataFile db today fnam ar = Except.error extractErrMsg
    ∧ (processOneFile db today { fnam := fnam, ar := ar }).attempts = 3
    ∧ (processOneFile db today { fnam := fnam, ar := ar }).flagged = true
    ∧ (processOneFile db today { fnam := fnam, ar := ar }).result = none
    ∧ runFiles today db ({ fnam := fnam, ar := ar } :: js)
        = runFiles today db js := by
  have hext : extractProdukt ar = Except.error extractErrMsg := by
    unfold extractProdukt
    rw [hfind]
  have hpd : processDataFile db today fnam ar = Except.error extractErrMsg := by
    unfold processDataFile
    rw [hsid]
    dsimp only
    rw [hload]
    dsimp only
    rw [hexp]
    dsimp only
    rw [hext]
  have hone : processOneFile db today { fnam := fnam, ar := ar }
      = ⟨3, 3, none, true⟩ := by
    unfold processOneFile
    dsimp only
    have hf : (fun _ : Nat => outcomeOf (processDataFile db today fnam ar))
        = fun _ : Nat => (Outcome.exn : Outcome DB) := by
      funext i
      rw [hpd]
      rfl
    rw [hf]
    rfl
  refine ⟨hext, hpd, by rw [hone], by rw [hone], by rw [hone], ?_⟩
  show (match (processOneFile db today { fnam := fnam, ar := ar }).result with
        | some db2 => runFiles today db2 js
        | none => runFiles today db js) = runFiles today db js
  rw [hone]

/-- C7 amended witness at the concrete archive without payload entry. -/
theorem C7_missing_payload_amended_witness :
    extractProdukt arNoProdukt = Except.error extractErrMsg
    ∧ processDataFile dbStart date0 fnamAkt44 arNoProdukt
        = Except.error extractErrMsg
    ∧ (processOneFile dbStart date0 { fnam := fnamAkt44, ar := arNoProdukt }).attempts = 3
    ∧ (processOneFile dbStart date0 { fnam := fnamAkt44, ar := arNoProdukt }).flagged = true
    ∧ (processOneFile dbStart date0 { fnam := fnamAkt44, ar := arNoProdukt }).result = none
    ∧ runFiles date0 dbStart ({ fnam := fnamAkt44, ar := arNoProdukt } :: [])
        = runFiles date0 dbStart [] :=
  C7_missing_payload_amended dbStart date0 fnamAkt44 arNoProdukt 44 stStart []
    rfl rfl rfl rfl

/-! ## C8: bounded retries, fixed delay, flag and continuation -/

theorem retryCatchAll_eq {α : Type} (f : Nat → Outcome α) :
    retryCatchAll f 3 0 0
      = match f 0 with
        | Outcome.ok a => ⟨1, 0, some a, false⟩
        | _ =>
          match f 1 with
          | Outcome.ok a => ⟨2, 1, some a, false⟩
          | _ =>
            match f 2 with
            | Outcome.ok a => ⟨3, 2, some a, false⟩
            | _ => ⟨3, 3, none, true⟩ := by
  have e1 : retryCatchAll f 3 0 0
      = match f 0 with
        | Outcome.ok a => ⟨1, 0, some a, false⟩
        | Outcome.timeout => retryCatchAll f 2 1 1
        | Outcome.exn => retryCatchAll f 2 1 1 := rfl
  have e2 : retryCatchAll f 2 1 1
      = match f 1 with
        | Outcome.ok a => ⟨2, 1, some a, false⟩
        | Outcome.timeout => retryCatchAll f 1 2 2
        | Outcome.exn => retryCatchAll f 1 2 2 := rfl
  have e3 : retryCatchAll f 1 2 2
      = match f 2 with
        | Outcome.ok a => ⟨3, 2, some a, false⟩
        | Outcome.timeout => retryCatchAll f 0 3 3
        | Outcome.exn => retryCatchAll f 0 3 3 := rfl
  have e0 : retryCatchAll f 0 3 3 = ⟨3, 3, none, true⟩ := rfl
  rw [e1, e2, e3, e0]
  cases f 0 <;> cases f 1 <;> cases f 2 <;> rfl

theorem retryTimeoutOnly_eq {α : Type} (f : Nat → Outcome α) :
    retryTimeoutOnly f 3 0 0
      = match f 0 with
        | Outcome.ok a => ⟨1, 0, some a, false⟩
        | Outcome.exn => ⟨1, 0, none, false⟩
        | Outcome.timeout =>
          match f 1 with
          | Outcome.ok a => ⟨2, 1, some a, false⟩
          | Outcome.exn => ⟨2, 1, none, false⟩
          | Outcome.timeout =>
            match f 2 with
            | Outcome.ok a => ⟨3, 2, some a, false⟩
            | Outcome.exn => ⟨3, 2, none, false⟩
            | Outcome.timeout => ⟨3, 3, none, true⟩ := by
  have e1 : retryTimeoutOnly f 3 0 0
      = match f 0 with
        | Outcome.ok a => ⟨1, 0, some a, false⟩
        | Outcome.timeout => retryTimeoutOnly f 2 1 1
        | Outcome.exn => ⟨1, 0, none, false⟩ := rfl
  have e2 : retryTimeoutOnly f 2 1 1
      = match f 1 with
        | Outcome.ok a => ⟨2, 1, some a, false⟩
        | Outcome.timeout => retryTimeoutOnly f 1 2 2
        | Outcome.exn => ⟨2, 1, none, false⟩ := rfl
  have e3 : retryTimeoutOnly f 1 2 2
      = match f 2 with
        | Outcome.ok a => ⟨3, 2, some a, false⟩
        | Outcome.timeout => ⟨3, 3, none, true⟩
        | Outcome.exn => ⟨3, 2, none, false⟩ := rfl
  rw [e1, e2, e3]
  cases f 0 <;> cases f 1 <;> cases f 2 <;> rfl

/-- C8: any per-file operation is attempted at most 3 times; exhaustion
means exactly 3 attempts, a fixed delay after each of the 3 failed
attempts, and the error flag set, after which the loop continues with the
next file unchanged; a success is never flagged and slept exactly once per
preceding failed attempt; and three timeouts while obtaining the remote
file listing set the error flag and abort the run by raising. -/
theorem C8_retry_policy (f : Nat → Outcome DB) (g : Nat → Outcome (List String))
    (today : Date) (db : DB) (j : FileJob) (js : List FileJob) :
    (retryCatchAll f 3 0 0).attempts ≤ 3
    ∧ ((retryCatchAll f 3 0 0).result = none →
        (retryCatchAll f 3 0 0).flagged = true
        ∧ (retryCatchAll f 3 0 0).attempts = 3
        ∧ (retryCatchAll f 3 0 0).delays = 3)
    ∧ ((retryCatchAll f 3 0 0).result ≠ none →
        (retryCatchAll f 3 0 0).flagged = false
        ∧ (retryCatchAll f 3 0 0).delays = (retryCatchAll f 3 0 0).attempts - 1)
    ∧ ((processOneFile db today j).result = none →
        (processOneFile db today j).flagged = true
        ∧ runFiles today db (j :: js) = runFiles today db js)
    ∧ (g 0 = Outcome.timeout → g 1 = Outcome.timeout → g 2 = Outcome.timeout →
        obtainFileList g = (true, Except.error listingFailMsg)) := by
  refine ⟨?_, ?_, ?_, ?_, ?_⟩
  · rw [retryCatchAll_eq]
    cases f 0 <;> cases f 1 <;> cases f 2 <;> simp
  · rw [retryCatchAll_eq]
    cases f 0 <;> cases f 1 <;> cases f 2 <;> simp
  · rw [retryCatchAll_eq]
    cases f 0 <;> cases f 1 <;> cases f 2 <;> simp
  · intro hres
    cases hpd : processDataFile db today j.fnam j.ar with
    | ok d =>
      rw [processOneFile_result, hpd] at hres
      cases hres
    | error e =>
      have hone : processOneFile db today j = ⟨3, 3, none, true⟩ := by
        unfold processOneFile
        have hf : (fun _ : Nat => outcomeOf (processDataFile db today j.fnam j.ar))
            = fun _ : Nat => (Outcome.exn : Outcome DB) := by
          funext i
          rw [hpd]
          rfl
        rw [hf]
        rfl
      constructor
      · rw [hone]
      · show (match (processOneFile db today j).result with
              | some db2 => runFiles today db2 js
              | none => runFiles today db js) = runFiles today db js
        rw [hone]
  · intro h0 h1 h2
    unfold obtainFileList
    rw [retryTimeoutOnly_eq, h0, h1, h2]
    rfl

/-- C8 witness: an always-failing per-file operation, the concrete
exhausted file job, and an always-timing-out listing. -/
theorem C8_retry_policy_witness :
    (retryCatchAll (fun _ : Nat => (Outcome.exn : Outcome DB)) 3 0 0).attempts ≤ 3
    ∧ (retryCatchAll (fun _ : Nat => (Outcome.exn : Outcome DB)) 3 0 0).flagged = true
    ∧ (retryCatchAll (fun _ : Nat => (Outcome.exn : Outcome DB)) 3 0 0).delays = 3
    ∧ (processOneFile dbStart date0 jobBad).flagged = true
    ∧ runFiles date0 dbStart (jobBad :: []) = runFiles date0 dbStart []
    ∧ obtainFileList (fun _ => Outcome.timeout) = (true, Except.error listingFailMsg) := by
  obtain ⟨h1, h2, h3, h4, h5⟩ :=
    C8_retry_policy (fun _ : Nat => (Outcome.exn : Outcome DB))
      (fun _ => Outcome.timeout) date0 dbStart jobBad []
  obtain ⟨h2a, h2b, h2c⟩ := h2 rfl
  obtain ⟨h4a, h4b⟩ := h4 rfl
  exact ⟨h1, h2a, h2c, h4a, h4b, h5 rfl rfl rfl⟩

end DwdCdc
